import Mathlib

/-!
Verification of the vmlib transform-math library (`src/vmlib/mat44.hpp`).

The C++ library stores a 4x4 matrix of floats in row-major order as a flat
16-element array `v`, indexed as `v[i*4 + j]`.  We embed that data model
directly: a matrix over a scalar type `α` is a function `Fin 16 → α`, and each
operation mirrors the source's index arithmetic.  The algebraic claims of the
spec are stated in exact arithmetic, so the generic operations are defined over
an arbitrary commutative ring (every IEEE float value is a rational number, so
`ℚ` instances cover all concrete float inputs exactly); the rotation and
perspective constructors, which call `cos`/`sin`/`tan`, are defined over `ℝ`.
-/

namespace Vmlib

/-- Mat44f from `mat44.hpp`: a 4x4 matrix stored row-major in a flat
16-element array `v`, entry (i,j) at offset `i*4 + j`. -/
structure Mat44f (α : Type) where
  v : Fin 16 → α

theorem Mat44f.ext_elem {α : Type} {a b : Mat44f α} (h : ∀ n : Fin 16, a.v n = b.v n) :
    a = b := by
  cases a; cases b; simp only [Mat44f.mk.injEq]; exact funext h

/-- Vec3f from `vec3.hpp` (used only as the argument of `make_translation`). -/
structure Vec3f (α : Type) where
  x : α
  y : α
  z : α

/-- Vec4f from `vec4.hpp`. -/
structure Vec4f (α : Type) where
  x : α
  y : α
  z : α
  w : α

/-- Flat-array offset `i*4 + j` of entry (i,j), as in `v[aI * 4 + aJ]`. -/
def idx (i j : Fin 4) : Fin 16 := ⟨i.val * 4 + j.val, by omega⟩

/-- Row index of a flat offset. -/
def rowOf (n : Fin 16) : Fin 4 := ⟨n.val / 4, by omega⟩

/-- Column index of a flat offset. -/
def colOf (n : Fin 16) : Fin 4 := ⟨n.val % 4, by omega⟩

variable {α : Type}

/-- Builds a Mat44f from the sixteen entries of a row-major brace initializer,
in the order they appear in the C++ source. -/
def mk16 (a0 a1 a2 a3 a4 a5 a6 a7 a8 a9 a10 a11 a12 a13 a14 a15 : α) :
    Mat44f α :=
  ⟨fun n =>
    if n.val = 0 then a0
    else if n.val = 1 then a1
    else if n.val = 2 then a2
    else if n.val = 3 then a3
    else if n.val = 4 then a4
    else if n.val = 5 then a5
    else if n.val = 6 then a6
    else if n.val = 7 then a7
    else if n.val = 8 then a8
    else if n.val = 9 then a9
    else if n.val = 10 then a10
    else if n.val = 11 then a11
    else if n.val = 12 then a12
    else if n.val = 13 then a13
    else if n.val = 14 then a14
    else a15⟩

@[simp] theorem mk16_v0 (a0 a1 a2 a3 a4 a5 a6 a7 a8 a9 a10 a11 a12 a13 a14 a15 : α)
    (h : (0 : ℕ) < 16) :
    (mk16 a0 a1 a2 a3 a4 a5 a6 a7 a8 a9 a10 a11 a12 a13 a14 a15).v ⟨0, h⟩ = a0 := rfl

@[simp] theorem mk16_v1 (a0 a1 a2 a3 a4 a5 a6 a7 a8 a9 a10 a11 a12 a13 a14 a15 : α)
    (h : (1 : ℕ) < 16) :
    (mk16 a0 a1 a2 a3 a4 a5 a6 a7 a8 a9 a10 a11 a12 a13 a14 a15).v ⟨1, h⟩ = a1 := rfl

@[simp] theorem mk16_v2 (a0 a1 a2 a3 a4 a5 a6 a7 a8 a9 a10 a11 a12 a13 a14 a15 : α)
    (h : (2 : ℕ) < 16) :
    (mk16 a0 a1 a2 a3 a4 a5 a6 a7 a8 a9 a10 a11 a12 a13 a14 a15).v ⟨2, h⟩ = a2 := rfl

@[simp] theorem mk16_v3 (a0 a1 a2 a3 a4 a5 a6 a7 a8 a9 a10 a11 a12 a13 a14 a15 : α)
    (h : (3 : ℕ) < 16) :
    (mk16 a0 a1 a2 a3 a4 a5 a6 a7 a8 a9 a10 a11 a12 a13 a14 a15).v ⟨3, h⟩ = a3 := rfl

@[simp] theorem mk16_v4 (a0 a1 a2 a3 a4 a5 a6 a7 a8 a9 a10 a11 a12 a13 a14 a15 : α)
    (h : (4 : ℕ) < 16) :
    (mk16 a0 a1 a2 a3 a4 a5 a6 a7 a8 a9 a10 a11 a12 a13 a14 a15).v ⟨4, h⟩ = a4 := rfl

@[simp] theorem mk16_v5 (a0 a1 a2 a3 a4 a5 a6 a7 a8 a9 a10 a11 a12 a13 a14 a15 : α)
    (h : (5 : ℕ) < 16) :
    (mk16 a0 a1 a2 a3 a4 a5 a6 a7 a8 a9 a10 a11 a12 a13 a14 a15).v ⟨5, h⟩ = a5 := rfl

@[simp] theorem mk16_v6 (a0 a1 a2 a3 a4 a5 a6 a7 a8 a9 a10 a11 a12 a13 a14 a15 : α)
    (h : (6 : ℕ) < 16) :
    (mk16 a0 a1 a2 a3 a4 a5 a6 a7 a8 a9 a10 a11 a12 a13 a14 a15).v ⟨6, h⟩ = a6 := rfl

@[simp] theorem mk16_v7 (a0 a1 a2 a3 a4 a5 a6 a7 a8 a9 a10 a11 a12 a13 a14 a15 : α)
    (h : (7 : ℕ) < 16) :
    (mk16 a0 a1 a2 a3 a4 a5 a6 a7 a8 a9 a10 a11 a12 a13 a14 a15).v ⟨7, h⟩ = a7 := rfl

@[simp] theorem mk16_v8 (a0 a1 a2 a3 a4 a5 a6 a7 a8 a9 a10 a11 a12 a13 a14 a15 : α)
    (h : (8 : ℕ) < 16) :
    (mk16 a0 a1 a2 a3 a4 a5 a6 a7 a8 a9 a10 a11 a12 a13 a14 a15).v ⟨8, h⟩ = a8 := rfl

@[simp] theorem mk16_v9 (a0 a1 a2 a3 a4 a5 a6 a7 a8 a9 a10 a11 a12 a13 a14 a15 : α)
    (h : (9 : ℕ) < 16) :
    (mk16 a0 a1 a2 a3 a4 a5 a6 a7 a8 a9 a10 a11 a12 a13 a14 a15).v ⟨9, h⟩ = a9 := rfl

@[simp] theorem mk16_v10 (a0 a1 a2 a3 a4 a5 a6 a7 a8 a9 a10 a11 a12 a13 a14 a15 : α)
    (h : (10 : ℕ) < 16) :
    (mk16 a0 a1 a2 a3 a4 a5 a6 a7 a8 a9 a10 a11 a12 a13 a14 a15).v ⟨10, h⟩ = a10 := rfl

@[simp] theorem mk16_v11 (a0 a1 a2 a3 a4 a5 a6 a7 a8 a9 a10 a11 a12 a13 a14 a15 : α)
    (h : (11 : ℕ) < 16) :
    (mk16 a0 a1 a2 a3 a4 a5 a6 a7 a8 a9 a10 a11 a12 a13 a14 a15).v ⟨11, h⟩ = a11 := rfl

@[simp] theorem mk16_v12 (a0 a1 a2 a3 a4 a5 a6 a7 a8 a9 a10 a11 a12 a13 a14 a15 : α)
    (h : (12 : ℕ) < 16) :
    (mk16 a0 a1 a2 a3 a4 a5 a6 a7 a8 a9 a10 a11 a12 a13 a14 a15).v ⟨12, h⟩ = a12 := rfl

@[simp] theorem mk16_v13 (a0 a1 a2 a3 a4 a5 a6 a7 a8 a9 a10 a11 a12 a13 a14 a15 : α)
    (h : (13 : ℕ) < 16) :
    (mk16 a0 a1 a2 a3 a4 a5 a6 a7 a8 a9 a10 a11 a12 a13 a14 a15).v ⟨13, h⟩ = a13 := rfl

@[simp] theorem mk16_v14 (a0 a1 a2 a3 a4 a5 a6 a7 a8 a9 a10 a11 a12 a13 a14 a15 : α)
    (h : (14 : ℕ) < 16) :
    (mk16 a0 a1 a2 a3 a4 a5 a6 a7 a8 a9 a10 a11 a12 a13 a14 a15).v ⟨14, h⟩ = a14 := rfl

@[simp] theorem mk16_v15 (a0 a1 a2 a3 a4 a5 a6 a7 a8 a9 a10 a11 a12 a13 a14 a15 : α)
    (h : (15 : ℕ) < 16) :
    (mk16 a0 a1 a2 a3 a4 a5 a6 a7 a8 a9 a10 a11 a12 a13 a14 a15).v ⟨15, h⟩ = a15 := rfl

variable [CommRing α]

/-- kIdentity44f from `mat44.hpp`. -/
def kIdentity44f : Mat44f α :=
  mk16 1 0 0 0 0 1 0 0 0 0 1 0 0 0 0 1

/-- operator*(Mat44f, Mat44f) from `mat44.hpp`: entry `i*4+j` of the result is
accumulated from `0.f` as the sum of `aLeft.v[i*4+k] * aRight.v[k*4+j]` for
k = 0..3 in order. -/
def matMul (aLeft aRight : Mat44f α) : Mat44f α :=
  ⟨fun n =>
    0 + aLeft.v (idx (rowOf n) ⟨0, by omega⟩) * aRight.v (idx ⟨0, by omega⟩ (colOf n))
      + aLeft.v (idx (rowOf n) ⟨1, by omega⟩) * aRight.v (idx ⟨1, by omega⟩ (colOf n))
      + aLeft.v (idx (rowOf n) ⟨2, by omega⟩) * aRight.v (idx ⟨2, by omega⟩ (colOf n))
      + aLeft.v (idx (rowOf n) ⟨3, by omega⟩) * aRight.v (idx ⟨3, by omega⟩ (colOf n))⟩

/-- operator*(Mat44f, Vec4f) from `mat44.hpp`, written out entry by entry as in
the source. -/
def mulVec (aLeft : Mat44f α) (aRight : Vec4f α) : Vec4f α :=
  ⟨aLeft.v ⟨0, by omega⟩ * aRight.x + aLeft.v ⟨1, by omega⟩ * aRight.y
      + aLeft.v ⟨2, by omega⟩ * aRight.z + aLeft.v ⟨3, by omega⟩ * aRight.w,
    aLeft.v ⟨4, by omega⟩ * aRight.x + aLeft.v ⟨5, by omega⟩ * aRight.y
      + aLeft.v ⟨6, by omega⟩ * aRight.z + aLeft.v ⟨7, by omega⟩ * aRight.w,
    aLeft.v ⟨8, by omega⟩ * aRight.x + aLeft.v ⟨9, by omega⟩ * aRight.y
      + aLeft.v ⟨10, by omega⟩ * aRight.z + aLeft.v ⟨11, by omega⟩ * aRight.w,
    aLeft.v ⟨12, by omega⟩ * aRight.x + aLeft.v ⟨13, by omega⟩ * aRight.y
      + aLeft.v ⟨14, by omega⟩ * aRight.z + aLeft.v ⟨15, by omega⟩ * aRight.w⟩

/-- transpose from `mat44.hpp`: `ret.v[j*4 + i] = aM.v[i*4 + j]` for all i, j;
equivalently, entry `n` of the result reads entry `(n%4)*4 + n/4` of the
input. -/
def transpose (aM : Mat44f α) : Mat44f α :=
  ⟨fun n => aM.v (idx (colOf n) (rowOf n))⟩

/-- make_translation from `mat44.hpp`. -/
def make_translation (aTranslation : Vec3f α) : Mat44f α :=
  mk16
    1 0 0 aTranslation.x
    0 1 0 aTranslation.y
    0 0 1 aTranslation.z
    0 0 0 1

/-- make_scaling from `mat44.hpp`. -/
def make_scaling (aSX aSY aSZ : α) : Mat44f α :=
  mk16
    aSX 0 0 0
    0 aSY 0 0
    0 0 aSZ 0
    0 0 0 1

/-- make_rotation_x from `mat44.hpp`, with `c = cos aAngle`, `s = sin aAngle`. -/
noncomputable def make_rotation_x (aAngle : ℝ) : Mat44f ℝ :=
  mk16
    1 0 0 0
    0 (Real.cos aAngle) (-Real.sin aAngle) 0
    0 (Real.sin aAngle) (Real.cos aAngle) 0
    0 0 0 1

/-- make_rotation_y from `mat44.hpp`. -/
noncomputable def make_rotation_y (aAngle : ℝ) : Mat44f ℝ :=
  mk16
    (Real.cos aAngle) 0 (Real.sin aAngle) 0
    0 1 0 0
    (-Real.sin aAngle) 0 (Real.cos aAngle) 0
    0 0 0 1

/-- make_rotation_z from `mat44.hpp`. -/
noncomputable def make_rotation_z (aAngle : ℝ) : Mat44f ℝ :=
  mk16
    (Real.cos aAngle) (-Real.sin aAngle) 0 0
    (Real.sin aAngle) (Real.cos aAngle) 0 0
    0 0 1 0
    0 0 0 1

/-- make_perspective_projection from `mat44.hpp`, with
`f = 1 / tan(aFovInRadians / 2)` and `nf = 1 / (aNear - aFar)`. -/
noncomputable def make_perspective_projection (aFovInRadians aAspect aNear aFar : ℝ) :
    Mat44f ℝ :=
  mk16
    (1 / Real.tan (aFovInRadians / 2) / aAspect) 0 0 0
    0 (1 / Real.tan (aFovInRadians / 2)) 0 0
    0 0 ((aFar + aNear) * (1 / (aNear - aFar))) (2 * aFar * aNear * (1 / (aNear - aFar)))
    0 0 (-1) 0

/-- Mat44f::operator[] from `mat44.hpp`: the two-index element accessor guarded
by `assert(aI < 4 && aJ < 4)`.  A violated precondition aborts (no value is
produced), which we model as `none`; an in-range access reads the storage
element at flat offset `aI*4 + aJ`. -/
def elemGuarded (m : Mat44f α) (aI aJ : ℕ) : Option α :=
  if h : aI < 4 ∧ aJ < 4 then some (m.v ⟨aI * 4 + aJ, by omega⟩) else none

end Vmlib

namespace Vmlib

/-- C5: transpose is an involution: `transpose(transpose(m)) == m` for every
4x4 matrix `m`. -/
theorem transpose_transpose {α : Type} (m : Mat44f α) : transpose (transpose m) = m := by
  apply Mat44f.ext_elem
  intro n
  fin_cases n <;> rfl

/-- C1: composing two translation matrices yields the translation matrix of the
element-wise sum of the two offsets: the last column's first three entries are
`t1 + t2` and every other entry equals the identity matrix's (so the matrix is
identical to the identity off the last column). -/
theorem matMul_make_translation {α : Type} [CommRing α] (x1 y1 z1 x2 y2 z2 : α) :
    matMul (make_translation ⟨x1, y1, z1⟩) (make_translation ⟨x2, y2, z2⟩)
      = make_translation ⟨x1 + x2, y1 + y2, z1 + z2⟩ := by
  apply Mat44f.ext_elem
  intro n
  obtain ⟨nv, hn⟩ := n
  interval_cases nv <;>
    (simp only [matMul, make_translation, idx, rowOf, colOf, Nat.reduceMod,
      Nat.reduceDiv, Nat.reduceMul, Nat.reduceAdd, mk16_v0, mk16_v1, mk16_v2, mk16_v3,
      mk16_v4, mk16_v5, mk16_v6, mk16_v7, mk16_v8, mk16_v9, mk16_v10, mk16_v11,
      mk16_v12, mk16_v13, mk16_v14, mk16_v15]; ring)

/-- C2: composing two scaling matrices yields the scaling matrix of the
element-wise product: diagonal `(a*d, b*e, c*f, 1)`, zero off-diagonal. -/
theorem matMul_make_scaling {α : Type} [CommRing α] (a b c d e f : α) :
    matMul (make_scaling a b c) (make_scaling d e f)
      = make_scaling (a * d) (b * e) (c * f) := by
  apply Mat44f.ext_elem
  intro n
  obtain ⟨nv, hn⟩ := n
  interval_cases nv <;>
    (simp only [matMul, make_scaling, idx, rowOf, colOf, Nat.reduceMod,
      Nat.reduceDiv, Nat.reduceMul, Nat.reduceAdd, mk16_v0, mk16_v1, mk16_v2, mk16_v3,
      mk16_v4, mk16_v5, mk16_v6, mk16_v7, mk16_v8, mk16_v9, mk16_v10, mk16_v11,
      mk16_v12, mk16_v13, mk16_v14, mk16_v15]; ring)

/-- C4: in exact arithmetic the matrix product is associative for all 4x4
matrices over any commutative ring, and it is not commutative (witnessed over
`ℚ`, whose elements include every IEEE float value). -/
theorem matMul_assoc_not_comm :
    (∀ (β : Type) [CommRing β] (a b c : Mat44f β),
        matMul (matMul a b) c = matMul a (matMul b c))
    ∧ ∃ a b : Mat44f ℚ, matMul a b ≠ matMul b a := by
  constructor
  · intro β _inst a b c
    apply Mat44f.ext_elem
    intro n
    obtain ⟨nv, hn⟩ := n
    interval_cases nv <;>
      (simp only [matMul, idx, rowOf, colOf, Nat.reduceMod, Nat.reduceDiv,
        Nat.reduceMul, Nat.reduceAdd]; ring)
  · refine ⟨mk16 0 1 0 0 0 0 0 0 0 0 0 0 0 0 0 0,
      mk16 0 0 0 0 1 0 0 0 0 0 0 0 0 0 0 0, fun h => ?_⟩
    have h0 := congrArg (fun m => m.v ⟨0, by omega⟩) h
    simp only [matMul, idx, rowOf, colOf, Nat.reduceMod, Nat.reduceDiv, Nat.reduceMul,
      Nat.reduceAdd, mk16_v0, mk16_v1, mk16_v2, mk16_v3, mk16_v4, mk16_v5, mk16_v6,
      mk16_v7, mk16_v8, mk16_v9, mk16_v10, mk16_v11, mk16_v12, mk16_v13, mk16_v14,
      mk16_v15] at h0
    norm_num at h0

/-- C7: at angle zero every rotation constructor returns exactly the identity
matrix, since `cos 0 = 1` and `sin 0 = 0`. -/
theorem make_rotation_zero_eq_identity :
    make_rotation_x 0 = (kIdentity44f : Mat44f ℝ)
    ∧ make_rotation_y 0 = (kIdentity44f : Mat44f ℝ)
    ∧ make_rotation_z 0 = (kIdentity44f : Mat44f ℝ) := by
  refine ⟨?_, ?_, ?_⟩ <;>
    (apply Mat44f.ext_elem
     intro n
     obtain ⟨nv, hn⟩ := n
     interval_cases nv <;>
       simp [make_rotation_x, make_rotation_y, make_rotation_z, kIdentity44f])

/-- C6: rotating by pi/2 about X maps (1,1,0,1) to (1,0,1,1), about Y maps
(1,1,0,1) to (0,1,-1,1), and about Z maps (1,0,1,1) to (0,1,1,1); every
component lands within the test tolerance 1e-6 (in fact exactly, because
`cos(pi/2) = 0` and `sin(pi/2) = 1`). -/
theorem rotation_pi_div_two_images :
    (|(mulVec (make_rotation_x (Real.pi / 2)) ⟨1, 1, 0, 1⟩).x - 1| ≤ 1e-6
      ∧ |(mulVec (make_rotation_x (Real.pi / 2)) ⟨1, 1, 0, 1⟩).y - 0| ≤ 1e-6
      ∧ |(mulVec (make_rotation_x (Real.pi / 2)) ⟨1, 1, 0, 1⟩).z - 1| ≤ 1e-6
      ∧ |(mulVec (make_rotation_x (Real.pi / 2)) ⟨1, 1, 0, 1⟩).w - 1| ≤ 1e-6)
    ∧ (|(mulVec (make_rotation_y (Real.pi / 2)) ⟨1, 1, 0, 1⟩).x - 0| ≤ 1e-6
      ∧ |(mulVec (make_rotation_y (Real.pi / 2)) ⟨1, 1, 0, 1⟩).y - 1| ≤ 1e-6
      ∧ |(mulVec (make_rotation_y (Real.pi / 2)) ⟨1, 1, 0, 1⟩).z - (-1)| ≤ 1e-6
      ∧ |(mulVec (make_rotation_y (Real.pi / 2)) ⟨1, 1, 0, 1⟩).w - 1| ≤ 1e-6)
    ∧ (|(mulVec (make_rotation_z (Real.pi / 2)) ⟨1, 0, 1, 1⟩).x - 0| ≤ 1e-6
      ∧ |(mulVec (make_rotation_z (Real.pi / 2)) ⟨1, 0, 1, 1⟩).y - 1| ≤ 1e-6
      ∧ |(mulVec (make_rotation_z (Real.pi / 2)) ⟨1, 0, 1, 1⟩).z - 1| ≤ 1e-6
      ∧ |(mulVec (make_rotation_z (Real.pi / 2)) ⟨1, 0, 1, 1⟩).w - 1| ≤ 1e-6) := by
  have hx : mulVec (make_rotation_x (Real.pi / 2)) ⟨1, 1, 0, 1⟩
      = (⟨1, 0, 1, 1⟩ : Vec4f ℝ) := by
    simp only [mulVec, make_rotation_x, Real.cos_pi_div_two, Real.sin_pi_div_two,
      mk16_v0, mk16_v1, mk16_v2, mk16_v3, mk16_v4, mk16_v5, mk16_v6, mk16_v7,
      mk16_v8, mk16_v9, mk16_v10, mk16_v11, mk16_v12, mk16_v13, mk16_v14, mk16_v15,
      Vec4f.mk.injEq]
    norm_num
  have hy : mulVec (make_rotation_y (Real.pi / 2)) ⟨1, 1, 0, 1⟩
      = (⟨0, 1, -1, 1⟩ : Vec4f ℝ) := by
    simp only [mulVec, make_rotation_y, Real.cos_pi_div_two, Real.sin_pi_div_two,
      mk16_v0, mk16_v1, mk16_v2, mk16_v3, mk16_v4, mk16_v5, mk16_v6, mk16_v7,
      mk16_v8, mk16_v9, mk16_v10, mk16_v11, mk16_v12, mk16_v13, mk16_v14, mk16_v15,
      Vec4f.mk.injEq]
    norm_num
  have hz : mulVec (make_rotation_z (Real.pi / 2)) ⟨1, 0, 1, 1⟩
      = (⟨0, 1, 1, 1⟩ : Vec4f ℝ) := by
    simp only [mulVec, make_rotation_z, Real.cos_pi_div_two, Real.sin_pi_div_two,
      mk16_v0, mk16_v1, mk16_v2, mk16_v3, mk16_v4, mk16_v5, mk16_v6, mk16_v7,
      mk16_v8, mk16_v9, mk16_v10, mk16_v11, mk16_v12, mk16_v13, mk16_v14, mk16_v15,
      Vec4f.mk.injEq]
    norm_num
  rw [hx, hy, hz]
  norm_num

/-- C8: the perspective constructor returns the standard symmetric-frustum
matrix: with `f = 1/tan(fov/2)`, entry (0,0) is `f/aspect`, entry (1,1) is `f`,
entry (2,2) is `(far+near)/(near-far)`, entry (2,3) is `2*far*near/(near-far)`,
entry (3,2) is `-1`, and every remaining entry is `0`. -/
theorem make_perspective_projection_entries (fov aspect near far : ℝ) :
    make_perspective_projection fov aspect near far
      = mk16
          (1 / Real.tan (fov / 2) / aspect) 0 0 0
          0 (1 / Real.tan (fov / 2)) 0 0
          0 0 ((far + near) / (near - far)) (2 * far * near / (near - far))
          0 0 (-1) 0 := by
  apply Mat44f.ext_elem
  intro n
  obtain ⟨nv, hn⟩ := n
  interval_cases nv <;>
    simp only [make_perspective_projection, mul_one_div,
      mk16_v0, mk16_v1, mk16_v2, mk16_v3, mk16_v4, mk16_v5, mk16_v6, mk16_v7,
      mk16_v8, mk16_v9, mk16_v10, mk16_v11, mk16_v12, mk16_v13, mk16_v14, mk16_v15]

/-- C10: for every input vector and all projection parameters, the w component
of the projected vector is the negated view-space z, because the last row of
the perspective matrix is (0, 0, -1, 0). -/
theorem make_perspective_projection_w (fov aspect near far vx vy vz vw : ℝ) :
    (mulVec (make_perspective_projection fov aspect near far) ⟨vx, vy, vz, vw⟩).w
      = -vz := by
  simp only [mulVec, make_perspective_projection, mk16_v12, mk16_v13, mk16_v14, mk16_v15]
  ring

/-- C9: the assertion-guarded two-index accessor reads the in-bounds storage
element at flat offset `aI*4 + aJ` whenever `aI < 4` and `aJ < 4`; when either
index is out of range the precondition is violated and no element is produced. -/
theorem elemGuarded_spec {α : Type} (m : Mat44f α) (aI aJ : ℕ) :
    (∀ hi : aI < 4, ∀ hj : aJ < 4,
        elemGuarded m aI aJ = some (m.v ⟨aI * 4 + aJ, by omega⟩))
    ∧ (4 ≤ aI ∨ 4 ≤ aJ → elemGuarded m aI aJ = none) := by
  constructor
  · intro hi hj
    simp only [elemGuarded]
    rw [dif_pos ⟨hi, hj⟩]
  · intro h
    simp only [elemGuarded]
    rw [dif_neg]
    omega

/-- Witness for C9: on a concrete rational matrix, the in-range access (1,2)
reads offset 6, and the out-of-range access (5,0) trips the precondition. -/
theorem elemGuarded_spec_witness :
    elemGuarded (mk16 (0 : ℚ) 1 2 3 4 5 6 7 8 9 10 11 12 13 14 15) 1 2 = some 6
    ∧ elemGuarded (mk16 (0 : ℚ) 1 2 3 4 5 6 7 8 9 10 11 12 13 14 15) 5 0 = none := by
  constructor
  · exact ((elemGuarded_spec (mk16 (0 : ℚ) 1 2 3 4 5 6 7 8 9 10 11 12 13 14 15) 1 2).1
      (by omega) (by omega)).trans rfl
  · exact (elemGuarded_spec (mk16 (0 : ℚ) 1 2 3 4 5 6 7 8 9 10 11 12 13 14 15) 5 0).2
      (Or.inl (by omega))

/-- Counterexample for C3: entry (3,3) of `make_perspective_projection` is the
plain constant `0`, not a value of the transformation's parameters, yet it
differs from the identity matrix's entry (3,3), which is `1`.  So the
perspective constructor does not return an otherwise-identity matrix. -/
theorem make_perspective_projection_not_identity_based :
    (make_perspective_projection 1 1 1 2).v ⟨15, by omega⟩ = 0
    ∧ (kIdentity44f : Mat44f ℝ).v ⟨15, by omega⟩ = 1
    ∧ (0 : ℝ) ≠ 1 := by
  refine ⟨rfl, rfl, by norm_num⟩

/-- C3 as amended: each affine constructor (translation, scaling, and the three
rotations) returns a matrix that agrees with the identity at every entry that
does not depend on the constructor's arguments; `make_perspective_projection`
agrees with the identity at every entry outside offsets 0, 5, 10, 11 (the
argument-dependent entries) and 14, 15, but fixes entry 14 = (3,2) to `-1` and
entry 15 = (3,3) to `0`, where the identity holds `0` and `1` respectively. -/
theorem make_constructors_identity_off_entries :
    (∀ (t : Vec3f ℝ) (n : Fin 16), n.val ≠ 3 → n.val ≠ 7 → n.val ≠ 11 →
        (make_translation t).v n = (kIdentity44f : Mat44f ℝ).v n)
    ∧ (∀ (a b c : ℝ) (n : Fin 16), n.val ≠ 0 → n.val ≠ 5 → n.val ≠ 10 →
        (make_scaling a b c).v n = (kIdentity44f : Mat44f ℝ).v n)
    ∧ (∀ (θ : ℝ) (n : Fin 16), n.val ≠ 5 → n.val ≠ 6 → n.val ≠ 9 → n.val ≠ 10 →
        (make_rotation_x θ).v n = (kIdentity44f : Mat44f ℝ).v n)
    ∧ (∀ (θ : ℝ) (n : Fin 16), n.val ≠ 0 → n.val ≠ 2 → n.val ≠ 8 → n.val ≠ 10 →
        (make_rotation_y θ).v n = (kIdentity44f : Mat44f ℝ).v n)
    ∧ (∀ (θ : ℝ) (n : Fin 16), n.val ≠ 0 → n.val ≠ 1 → n.val ≠ 4 → n.val ≠ 5 →
        (make_rotation_z θ).v n = (kIdentity44f : Mat44f ℝ).v n)
    ∧ (∀ (fov aspect near far : ℝ) (n : Fin 16),
        n.val ≠ 0 → n.val ≠ 5 → n.val ≠ 10 → n.val ≠ 11 → n.val ≠ 14 → n.val ≠ 15 →
        (make_perspective_projection fov aspect near far).v n
          = (kIdentity44f : Mat44f ℝ).v n)
    ∧ (∀ (fov aspect near far : ℝ),
        (make_perspective_projection fov aspect near far).v ⟨14, by omega⟩ = -1
        ∧ (make_perspective_projection fov aspect near far).v ⟨15, by omega⟩ = 0) := by
  refine ⟨?_, ?_, ?_, ?_, ?_, ?_, ?_⟩
  · intro t n h3 h7 h11
    obtain ⟨nv, hn⟩ := n
    interval_cases nv <;> first | rfl | simp_all
  · intro a b c n h0 h5 h10
    obtain ⟨nv, hn⟩ := n
    interval_cases nv <;> first | rfl | simp_all
  · intro θ n h5 h6 h9 h10
    obtain ⟨nv, hn⟩ := n
    interval_cases nv <;> first | rfl | simp_all
  · intro θ n h0 h2 h8 h10
    obtain ⟨nv, hn⟩ := n
    interval_cases nv <;> first | rfl | simp_all
  · intro θ n h0 h1 h4 h5
    obtain ⟨nv, hn⟩ := n
    interval_cases nv <;> first | rfl | simp_all
  · intro fov aspect near far n h0 h5 h10 h11 h14 h15
    obtain ⟨nv, hn⟩ := n
    interval_cases nv <;> first | rfl | simp_all
  · intro fov aspect near far
    exact ⟨rfl, rfl⟩

/-- Witness for the amended C3: each part applied at a concrete entry. -/
theorem make_constructors_identity_off_entries_witness :
    (make_translation (⟨1, 2, 3⟩ : Vec3f ℝ)).v ⟨0, by omega⟩
        = (kIdentity44f : Mat44f ℝ).v ⟨0, by omega⟩
    ∧ (make_scaling (2 : ℝ) 3 4).v ⟨1, by omega⟩
        = (kIdentity44f : Mat44f ℝ).v ⟨1, by omega⟩
    ∧ (make_rotation_x 1).v ⟨0, by omega⟩ = (kIdentity44f : Mat44f ℝ).v ⟨0, by omega⟩
    ∧ (make_rotation_y 1).v ⟨1, by omega⟩ = (kIdentity44f : Mat44f ℝ).v ⟨1, by omega⟩
    ∧ (make_rotation_z 1).v ⟨2, by omega⟩ = (kIdentity44f : Mat44f ℝ).v ⟨2, by omega⟩
    ∧ (make_perspective_projection 1 1 1 2).v ⟨1, by omega⟩
        = (kIdentity44f : Mat44f ℝ).v ⟨1, by omega⟩
    ∧ (make_perspective_projection 1 1 1 2).v ⟨14, by omega⟩ = -1
    ∧ (make_perspective_projection 1 1 1 2).v ⟨15, by omega⟩ = 0 := by
  refine ⟨?_, ?_, ?_, ?_, ?_, ?_, ?_, ?_⟩
  · exact make_constructors_identity_off_entries.1 ⟨1, 2, 3⟩ ⟨0, by omega⟩
      (by decide) (by decide) (by decide)
  · exact make_constructors_identity_off_entries.2.1 2 3 4 ⟨1, by omega⟩
      (by decide) (by decide) (by decide)
  · exact make_constructors_identity_off_entries.2.2.1 1 ⟨0, by omega⟩
      (by decide) (by decide) (by decide) (by decide)
  · exact make_constructors_identity_off_entries.2.2.2.1 1 ⟨1, by omega⟩
      (by decide) (by decide) (by decide) (by decide)
  · exact make_constructors_identity_off_entries.2.2.2.2.1 1 ⟨2, by omega⟩
      (by decide) (by decide) (by decide) (by decide)
  · exact make_constructors_identity_off_entries.2.2.2.2.2.1 1 1 1 2 ⟨1, by omega⟩
      (by decide) (by decide) (by decide) (by decide) (by decide) (by decide)
  · exact (make_constructors_identity_off_entries.2.2.2.2.2.2 1 1 1 2).1
  · exact (make_constructors_identity_off_entries.2.2.2.2.2.2 1 1 1 2).2

end Vmlib
